import Mathlib

/-
Shallow embedding of the rusty-space analytic-geometry library.

Conventions of the embedding:
- the 64-bit floating point scalars of the source are modelled as exact
  rationals; every comparison the source performs is exact equality, which
  the rational model reproduces faithfully for field operations;
- a Rust function that can reach a panic is modelled with the `PanicOr`
  result type below, whose `panicked` constructor marks the panic path;
- the source computes lengths and distances as square roots of rational
  expressions and compares them only with `== 0.0`; since `sqrt q = 0`
  exactly when `q = 0` for the nonnegative radicands arising there, the
  embedding represents each such magnitude by its square (a rational),
  which keeps every definition computable and preserves all zero tests;
- the source computes angles as `acos` of a cosine and only ever folds
  them past `pi / 2`; since no verified property inspects an angle
  magnitude, the embedding represents an angle by the numerator of its
  cosine together with the square of the denominator, and models the fold
  (which flips the sign of the cosine) accordingly.
-/

set_option maxHeartbeats 1000000

namespace RustySpace

/-- PanicOr marks whether an execution reached a Rust `panic!` (process
abort) or returned a value normally. -/
inductive PanicOr (α : Type) where
  | panicked
  | ok (a : α)
  deriving DecidableEq, Repr

/-- PanicOr.isOk is true when the execution returned normally. -/
def PanicOr.isOk : PanicOr α → Bool
  | .panicked => false
  | .ok _ => true

/-- Ratio from src/math/ratio.rs: classification of the division of two
scalars, used to build the linear-dependence test. -/
inductive Ratio where
  /-- division of zero by non-zero or non-zero by zero -/
  | invalid
  /-- both operands zero -/
  | zeros
  /-- a well-defined quotient -/
  | real (r : ℚ)
  deriving DecidableEq, Repr

namespace Ratio

/-- Ratio.compute from src/math/ratio.rs: `Zeros` if both are 0,
`Invalid` if exactly one is 0, else `Real (x / y)`. -/
def compute (x y : ℚ) : Ratio :=
  if x = 0 ∧ y = 0 then .zeros
  else if x = 0 ∨ y = 0 then .invalid
  else .real (x / y)

/-- Ratio.req embeds the `PartialEq for Ratio` impl from
src/math/ratio.rs: `Invalid` equals nothing, `Zeros` equals anything
except `Invalid`, two `Real` values compare by exact equality. -/
def req : Ratio → Ratio → Bool
  | .invalid, _ => false
  | _, .invalid => false
  | .zeros, _ => true
  | _, .zeros => true
  | .real x, .real y => decide (x = y)

/-- Ratio.isReal is true on the `Real` constructor, mirroring the
patterns `(Ratio::Real(r), _, _) | ...` of the `Div for Vector` impl. -/
def isReal : Ratio → Bool
  | .real _ => true
  | _ => false

end Ratio

/-- Vector from src/vector.rs: an ordered triple of scalars. -/
structure Vector where
  x : ℚ
  y : ℚ
  z : ℚ
  deriving DecidableEq, Repr

namespace Vector

/-- Vector addition (`Add for Vector`), component-wise. -/
instance : Add Vector where
  add u v := ⟨u.x + v.x, u.y + v.y, u.z + v.z⟩

/-- Vector subtraction (`Sub for Vector`), component-wise. -/
instance : Sub Vector where
  sub u v := ⟨u.x - v.x, u.y - v.y, u.z - v.z⟩

/-- Scalaric (dot) product (`Mul for Vector`), returning a scalar. -/
instance : HMul Vector Vector ℚ where
  hMul u v := u.x * v.x + u.y * v.y + u.z * v.z

/-- Multiplication of a vector by a scalar (`Mul<Vector> for f64`). -/
instance : HMul ℚ Vector Vector where
  hMul c v := ⟨c * v.x, c * v.y, c * v.z⟩

/-- Unfolding lemma for vector addition. -/
lemma add_def (u v : Vector) :
    u + v = (⟨u.x + v.x, u.y + v.y, u.z + v.z⟩ : Vector) := rfl

/-- Unfolding lemma for vector subtraction. -/
lemma sub_def (u v : Vector) :
    u - v = (⟨u.x - v.x, u.y - v.y, u.z - v.z⟩ : Vector) := rfl

/-- Unfolding lemma for the scalaric product. -/
lemma dot_def (u v : Vector) :
    (u * v : ℚ) = u.x * v.x + u.y * v.y + u.z * v.z := rfl

/-- Unfolding lemma for multiplication by a scalar. -/
lemma smul_def (c : ℚ) (v : Vector) :
    (c * v : Vector) = (⟨c * v.x, c * v.y, c * v.z⟩ : Vector) := rfl

/-- Vector.length_sq stands for the square of `Vector::length`; the
source returns `sqrt(self * self)` and only this square is ever needed
by the verified properties. -/
def length_sq (v : Vector) : ℚ := v * v

/-- Vector.divAux is the body of the `Div for Vector` impl from
src/vector.rs after the three per-coordinate ratios have been computed:
fail unless the three pairwise comparisons all succeed, then extract the
first `Real` ratio, failing when there is none. -/
def divAux (ratio1 ratio2 ratio3 : Ratio) : Except Unit ℚ :=
  if !(ratio1.req ratio2 && ratio1.req ratio3 && ratio2.req ratio3) then
    .error ()
  else
    match ratio1, ratio2, ratio3 with
    | .real r, _, _ => .ok r
    | _, .real r, _ => .ok r
    | _, _, .real r => .ok r
    | _, _, _ => .error ()

/-- Vector.div embeds `Div for Vector` from src/vector.rs: the ratio of
linearly dependent vectors, failing when the vectors are not linearly
dependent in the sense of the per-coordinate ratio test. -/
def div (u v : Vector) : Except Unit ℚ :=
  divAux (Ratio.compute u.x v.x) (Ratio.compute u.y v.y) (Ratio.compute u.z v.z)

/-- Vector.is_lindep from src/vector.rs: two vectors count as linearly
dependent exactly when their division succeeds. -/
def is_lindep (u v : Vector) : Bool :=
  match div u v with
  | .ok _ => true
  | .error _ => false

/-- Vector.vectoric_product from src/vector.rs: the right-handed cross
product. -/
def vectoric_product (u v : Vector) : Vector :=
  ⟨u.y * v.z - u.z * v.y, u.z * v.x - u.x * v.z, u.x * v.y - u.y * v.x⟩

end Vector

/-- Angle represents the value `acos(cosNum / sqrt(lenSqProd))` computed
by `Vector::angle_between`; the embedding stores the cosine numerator
(the dot product) and the square of the denominator (the product of the
squared lengths), which determines the angle and supports the only
operation the source applies to angles, the fold past `pi / 2`. -/
structure Angle where
  cosNum : ℚ
  lenSqProd : ℚ
  deriving DecidableEq, Repr

/-- Vector.angle_between from src/vector.rs, in the cosine
representation of `Angle`. -/
def Vector.angle_between (u v : Vector) : Angle :=
  ⟨u * v, (u * u) * (v * v)⟩

/-- Angle.fold models `if angle > PI / 2.0 { PI - angle } else { angle }`:
the angle exceeds a right angle exactly when its cosine is negative, and
taking the supplement flips the sign of the cosine. -/
def Angle.fold (a : Angle) : Angle :=
  if a.cosNum < 0 then ⟨-a.cosNum, a.lenSqProd⟩ else a

/-- EquationSolution from src/math/equation.rs: result of solving the
linear equation `a * x + b = 0`. -/
inductive EquationSolution where
  /-- no root: coefficient 0, constant non-zero -/
  | none
  /-- every value is a root: coefficient 0, constant 0 -/
  | undefined
  /-- a single real root -/
  | real (r : ℚ)
  deriving DecidableEq, Repr

namespace EquationSolution

/-- EquationSolution.compute from src/math/equation.rs: solve
`a * x + b = 0`. -/
def compute (a b : ℚ) : EquationSolution :=
  if a = 0 then
    (if b = 0 then .undefined else .none)
  else
    .real (-1 * b / a)

/-- EquationSolution.compute_other_solution from src/math/equation.rs:
given the `y` solution of a system, solve the remaining equation for
`x`. -/
def compute_other_solution (eq : ℚ × ℚ × ℚ) (y : ℚ) : Option (ℚ × ℚ) :=
  match compute eq.1 (eq.2.1 * y + eq.2.2) with
  | .real x => some (x, y)
  | _ => Option.none

/-- EquationSolution.reduceY captures the first stage of
`compute_multiple`: produce the coefficient and constant of the
single-variable equation in `y`, together with the equation kept for the
later `x` step (`eq_compute_later` in the source). -/
def reduceY (eq1 eq2 : ℚ × ℚ × ℚ) : (ℚ × ℚ) × (ℚ × ℚ × ℚ) :=
  if eq1.1 = 0 then
    ((eq1.2.1, eq1.2.2), eq2)
  else if eq2.1 = 0 then
    ((eq2.2.1, eq2.2.2), eq1)
  else
    let multiplier := eq1.1 / eq2.1
    let v1 : Vector := ⟨eq1.1, eq1.2.1, eq1.2.2⟩
    let v2 : Vector := multiplier * (⟨eq2.1, eq2.2.1, eq2.2.2⟩ : Vector)
    let difference := v1 - v2
    ((difference.y, difference.z), eq1)

/-- EquationSolution.compute_multiple from src/math/equation.rs: solve
the system `a*x + b*y + c = 0`, `m*x + n*y + k = 0`, returning the pair
of solutions when the system has exactly one. -/
def compute_multiple (eq1 eq2 : ℚ × ℚ × ℚ) : Option (ℚ × ℚ) :=
  let r := reduceY eq1 eq2
  match compute r.1.1 r.1.2 with
  | .real y => compute_other_solution r.2 y
  | _ => Option.none

end EquationSolution

/-- Dimension from src/math/dependence.rs: a coordinate axis tag, with
`none` meaning no axis. -/
inductive Dimension where
  | X
  | Y
  | Z
  /-- no dimension, used by the zero_dims function -/
  | none
  deriving DecidableEq, Repr

/-- Function zero_dims from src/math/dependence.rs: tag each coefficient
that is zero with its axis, and the others with `none`, so that the case
analysis of `compute` can be a match expression. -/
def zero_dims (x_coefficient y_coefficient z_coefficient : ℚ) :
    Dimension × Dimension × Dimension :=
  (if x_coefficient = 0 then .X else .none,
   if y_coefficient = 0 then .Y else .none,
   if z_coefficient = 0 then .Z else .none)

/-- SingleScalarDependence from src/math/dependence.rs: the affine
relation `target = source_scalar * source + constant`, or
`target = constant` when the source is `none`. -/
structure SingleScalarDependence where
  target : Dimension
  source : Dimension
  source_scalar : ℚ
  constant : ℚ
  deriving DecidableEq, Repr

namespace SingleScalarDependence

/-- SingleScalarDependence.scalar_only from src/math/dependence.rs:
`a * x + d = 0` gives `x = -d / a`. -/
def scalar_only (target : Dimension) (coefficient constant : ℚ) :
    SingleScalarDependence :=
  ⟨target, .none, 1, -constant / coefficient⟩

/-- SingleScalarDependence.from_coefficients from src/math/dependence.rs:
`b * y + c * z + d = 0` gives `z = (-b / c) * y + (-d / c)`. -/
def from_coefficients (target source : Dimension)
    (target_coefficient source_coefficient constant : ℚ) :
    SingleScalarDependence :=
  ⟨target, source, -source_coefficient / target_coefficient,
    -constant / target_coefficient⟩

/-- SingleScalarDependence.compute from src/math/dependence.rs: derive a
dependence from one plane equation by case analysis on the zero
coefficients; panics when all three coefficients are zero, fails with an
error value when none is. -/
def compute (x_coefficient y_coefficient z_coefficient constant : ℚ) :
    PanicOr (Except Unit SingleScalarDependence) :=
  match zero_dims x_coefficient y_coefficient z_coefficient with
  | (.X, .Y, .Z) => .panicked
  | (.X, .Y, _) => .ok (.ok (scalar_only .Z z_coefficient constant))
  | (.X, _, .Z) => .ok (.ok (scalar_only .Y y_coefficient constant))
  | (_, .Y, .Z) => .ok (.ok (scalar_only .X x_coefficient constant))
  | (.X, _, _) =>
      .ok (.ok (from_coefficients .Z .Y z_coefficient y_coefficient constant))
  | (_, .Y, _) =>
      .ok (.ok (from_coefficients .Z .X z_coefficient x_coefficient constant))
  | (_, _, .Z) =>
      .ok (.ok (from_coefficients .Y .X y_coefficient x_coefficient constant))
  | (_, _, _) => .ok (.error ())

/-- SingleScalarDependence.put from src/math/dependence.rs: evaluate the
dependence at a value of its source axis. -/
def put (dep : SingleScalarDependence) (value : ℚ) : ℚ :=
  if dep.source = Dimension.none then dep.constant
  else dep.source_scalar * value + dep.constant

/-- SingleScalarDependence.sourceOf is the first match of
`put_multiple`: the shared source axis of the two dependencies, a `none`
source being compatible with anything; panics when the sources differ. -/
def sourceOf : Dimension → Dimension → PanicOr Dimension
  | .none, dim => .ok dim
  | dim, .none => .ok dim
  | dim1, dim2 => if dim1 = dim2 then .ok dim1 else .panicked

/-- DimMap.insert models `HashMap::insert` on the small map of
`put_multiple`: replace the value when the key is present, extend the
map otherwise. -/
def DimMap.insert : List (Dimension × ℚ) → Dimension → ℚ → List (Dimension × ℚ)
  | [], k, v => [(k, v)]
  | (k0, v0) :: rest, k, v =>
      if k0 = k then (k, v) :: rest else (k0, v0) :: DimMap.insert rest k v

/-- DimMap.find models `HashMap::get` on the map of `put_multiple`. -/
def DimMap.find : List (Dimension × ℚ) → Dimension → Option ℚ
  | [], _ => Option.none
  | (k0, v0) :: rest, k => if k0 = k then some v0 else DimMap.find rest k

/-- DimMap.getCoord models the lookup
`value_map.get(&dim).unwrap_or_else(|| value_map.get(&Dimension::None).unwrap())`
of `put_multiple`: fall back to the `none` key and panic when both are
absent. -/
def DimMap.getCoord (m : List (Dimension × ℚ)) (k : Dimension) : PanicOr ℚ :=
  match DimMap.find m k with
  | some v => .ok v
  | Option.none =>
      match DimMap.find m Dimension.none with
      | some v => .ok v
      | Option.none => .panicked

/-- SingleScalarDependence.put_multiple from src/math/dependence.rs:
assemble a 3D point from two dependencies sharing a free parameter; the
source inserts the keys `source`, `dep1.source` and `dep2.source` into
the value map and panics when the map does not end up with three keys. -/
def put_multiple (dep1 dep2 : SingleScalarDependence) (value : ℚ) :
    PanicOr Vector :=
  match sourceOf dep1.source dep2.source with
  | .panicked => .panicked
  | .ok source =>
    let value1 := dep1.put value
    let value2 := dep2.put value
    let m0 := DimMap.insert [] source value
    let m1 := DimMap.insert m0 dep1.source value1
    let m2 := DimMap.insert m1 dep2.source value2
    if m2.length ≠ 3 then .panicked
    else
      match DimMap.getCoord m2 .X, DimMap.getCoord m2 .Y, DimMap.getCoord m2 .Z with
      | .ok x, .ok y, .ok z => .ok ⟨x, y, z⟩
      | _, _, _ => .panicked

end SingleScalarDependence

/-- Line from src/line.rs: a point and a direction. -/
structure Line where
  point : Vector
  direction : Vector
  deriving DecidableEq, Repr

namespace Line

/-- Line.foot_solution is the internal equation solve of
`Line::distance_from_point`: the coefficient is the dot product of the
direction with itself, the constant the dot product of the direction
with the difference of the base point and the query point. -/
def foot_solution (l : Line) (other_point : Vector) : EquationSolution :=
  EquationSolution.compute (l.direction * l.direction)
    (l.direction * (l.point - other_point))

/-- Line.distance_from_point from src/line.rs, with the distance
represented by its square; the non-`Real` branch of the internal solve
is the defensive panic of the source. -/
def distance_from_point (l : Line) (other_point : Vector) : PanicOr ℚ :=
  match foot_solution l other_point with
  | .real t => .ok (Vector.length_sq (l.point - other_point + t * l.direction))
  | _ => .panicked

/-- Line.is_on_line from src/line.rs: the distance to the point is
exactly zero (zero squared distance in the representation). -/
def is_on_line (l : Line) (other_point : Vector) : PanicOr Bool :=
  match distance_from_point l other_point with
  | .ok d => .ok (decide (d = 0))
  | .panicked => .panicked

/-- Line.intersection from src/line.rs: solve two of the three per-axis
equations for the parameters, skipping an axis whose equation is all
zero, then accept only when the two resulting points agree exactly. -/
def intersection (line1 line2 : Line) : Option Vector :=
  let consts := line2.point - line1.point
  let eq1 := (line1.direction.x, -line2.direction.x, consts.x)
  let eq2 := (line1.direction.y, -line2.direction.y, consts.y)
  let eq3 := (line1.direction.z, -line2.direction.z, consts.z)
  let result :=
    if eq1 = ((0 : ℚ), (0 : ℚ), (0 : ℚ)) then
      EquationSolution.compute_multiple eq3 eq2
    else if eq2 = ((0 : ℚ), (0 : ℚ), (0 : ℚ)) then
      EquationSolution.compute_multiple eq1 eq3
    else
      EquationSolution.compute_multiple eq1 eq2
  match result with
  | some (t, s) =>
    let intersection_t := line1.point + t * line1.direction
    let intersection_s := line2.point + s * line2.direction
    if intersection_t = intersection_s then some intersection_t else Option.none
  | Option.none => Option.none

/-- Line.angle_between from src/line.rs: the angle between the two
directions folded into the first quadrant. -/
def angle_between (line1 line2 : Line) : Angle :=
  (Vector.angle_between line1.direction line2.direction).fold

end Line

/-- Plain from src/plain.rs: a plane given by its plumb (normal) vector
and the offset of its implicit equation. -/
structure Plain where
  plumb : Vector
  constant_d : ℚ
  deriving DecidableEq, Repr

namespace Plain

/-- Plain.new from src/plain.rs: panics when the two directions pass the
linear-dependence test, else takes the cross product as plumb. -/
def new (origin dir1 dir2 : Vector) : PanicOr Plain :=
  if dir1.is_lindep dir2 then .panicked
  else
    let plumb := Vector.vectoric_product dir1 dir2
    .ok ⟨plumb, -1 * (plumb * origin)⟩

/-- Plain.compute from src/plain.rs: evaluate the implicit equation of
the plane at a point. -/
def compute (pl : Plain) (point : Vector) : ℚ :=
  pl.plumb * point + pl.constant_d

/-- Plain.distance_from from src/plain.rs, with the distance represented
by its square: the source returns `|compute(p)| / length(plumb)`. -/
def distance_from (pl : Plain) (point : Vector) : ℚ :=
  (pl.compute point) ^ 2 / pl.plumb.length_sq

/-- Plain.contains_point from src/plain.rs. -/
def contains_point (pl : Plain) (point : Vector) : Bool :=
  decide (pl.compute point = 0)

/-- Plain.contains_line from src/plain.rs: the base point lies on the
plane and the direction is orthogonal to the plumb. -/
def contains_line (pl : Plain) (l : Line) : Bool :=
  pl.contains_point l.point && decide ((l.direction * pl.plumb : ℚ) = 0)

/-- Plain.angle_between from src/plain.rs: the angle between the two
plumbs folded into the first quadrant. -/
def angle_between (plain1 plain2 : Plain) : Angle :=
  (Vector.angle_between plain1.plumb plain2.plumb).fold

/-- Plain.distance_between from src/plain.rs, with the distance
represented by its square: panics unless the plumbs pass the
linear-dependence test, then scales the second offset by the unwrapped
plumb ratio. -/
def distance_between (plain1 plain2 : Plain) : PanicOr ℚ :=
  if ¬ plain1.plumb.is_lindep plain2.plumb then .panicked
  else
    match Vector.div plain1.plumb plain2.plumb with
    | .error _ => .panicked
    | .ok plumb_ratio =>
      let d2 := plain2.constant_d * plumb_ratio
      .ok ((plain1.constant_d - d2) ^ 2 / plain1.plumb.length_sq)

end Plain

/-- LineRelations from src/line/relations.rs: the classification of a
pair of lines, distances carried as squares. -/
inductive LineRelations where
  | unite
  | parallel (dist_sq : ℚ)
  | intersect (point : Vector) (angle : Angle)
  | foreign (dist_sq : ℚ) (angle : Angle)
  deriving DecidableEq, Repr

namespace LineRelations

/-- LineRelations.of from src/line/relations.rs: dependent directions
give unite or parallel by the distance test, otherwise intersection is
attempted and the foreign case measures the distance from the common
plane through the first line. -/
def of (line1 line2 : Line) : PanicOr LineRelations :=
  if line1.direction.is_lindep line2.direction then
    match line1.distance_from_point line2.point with
    | .panicked => .panicked
    | .ok distance =>
        if distance = 0 then .ok .unite else .ok (.parallel distance)
  else
    let angle := Line.angle_between line1 line2
    match Line.intersection line1 line2 with
    | some intersection => .ok (.intersect intersection angle)
    | Option.none =>
        match Plain.new line1.point line1.direction line2.direction with
        | .panicked => .panicked
        | .ok common_plain =>
            .ok (.foreign (common_plain.distance_from line2.point) angle)

/-- LineRelations.eqb embeds the derived `PartialEq` instance of
`LineRelations`: same constructor with exactly equal payloads. -/
def eqb : LineRelations → LineRelations → Bool
  | .unite, .unite => true
  | .parallel d1, .parallel d2 => decide (d1 = d2)
  | .intersect p1 a1, .intersect p2 a2 => decide (p1 = p2) && decide (a1 = a2)
  | .foreign d1 a1, .foreign d2 a2 => decide (d1 = d2) && decide (a1 = a2)
  | _, _ => false

end LineRelations

/-- Line.peq embeds the `PartialEq for Line` impl from src/line.rs:
`LineRelations::of(self, other) == LineRelations::Unite`, the panic of
the classification propagating to the comparison. -/
def Line.peq (l1 l2 : Line) : PanicOr Bool :=
  match LineRelations.of l1 l2 with
  | .panicked => .panicked
  | .ok r => .ok (r.eqb .unite)

/-- Plain.from_two_lines from src/plain.rs: dispatch on the relation of
the two lines; unite and foreign lines panic. -/
def Plain.from_two_lines (line1 line2 : Line) : PanicOr Plain :=
  match LineRelations.of line1 line2 with
  | .panicked => .panicked
  | .ok (.parallel _) =>
      Plain.new line1.point line1.direction (line2.point - line1.point)
  | .ok (.intersect intersection _) =>
      Plain.new intersection line1.direction line2.direction
  | .ok .unite => .panicked
  | .ok (.foreign _ _) => .panicked

/-- Plain.from_three_points from src/plain.rs. -/
def Plain.from_three_points (point1 point2 point3 : Vector) : PanicOr Plain :=
  Plain.new point1 (point2 - point1) (point3 - point1)

/-- PlainRelations from src/plain/relations.rs: the classification of a
pair of planes, distances carried as squares. -/
inductive PlainRelations where
  | unite
  | parallel (dist_sq : ℚ)
  | intersect (line : Line) (angle : Angle)
  deriving DecidableEq, Repr

/-- PlainRelations.of from src/plain/relations.rs: independent plumbs
give the intersect variant, whose line the source builds as the constant
line through the origin with direction `(1, 0, 0)`; dependent plumbs
give unite on equal offsets and parallel otherwise. -/
def PlainRelations.of (plain1 plain2 : Plain) : PanicOr PlainRelations :=
  if ¬ plain1.plumb.is_lindep plain2.plumb then
    let angle := Plain.angle_between plain1 plain2
    let intersection : Line := ⟨⟨0, 0, 0⟩, ⟨1, 0, 0⟩⟩
    .ok (.intersect intersection angle)
  else if plain1.constant_d = plain2.constant_d then .ok .unite
  else
    match Plain.distance_between plain1 plain2 with
    | .panicked => .panicked
    | .ok d => .ok (.parallel d)

/-- Helper: a vector differs from the zero vector exactly when one of
its components is non-zero. -/
lemma Vector.ne_zero_iff (v : Vector) :
    v ≠ (⟨0, 0, 0⟩ : Vector) ↔ (v.x ≠ 0 ∨ v.y ≠ 0 ∨ v.z ≠ 0) := by
  cases v with
  | mk x y z => simp [Vector.mk.injEq]; tauto

/-- Helper: the dot product of a non-zero vector with itself is
non-zero. -/
lemma Vector.dot_self_ne_zero (v : Vector) (h : v ≠ (⟨0, 0, 0⟩ : Vector)) :
    (v * v : ℚ) ≠ 0 := by
  intro h0
  have e : v.x * v.x + v.y * v.y + v.z * v.z = 0 := h0
  have hx : v.x = 0 := by
    nlinarith [mul_self_nonneg v.x, mul_self_nonneg v.y, mul_self_nonneg v.z]
  have hy : v.y = 0 := by
    nlinarith [mul_self_nonneg v.x, mul_self_nonneg v.y, mul_self_nonneg v.z]
  have hz : v.z = 0 := by
    nlinarith [mul_self_nonneg v.x, mul_self_nonneg v.y, mul_self_nonneg v.z]
  apply h
  cases v with
  | mk x y z => simp_all

/-- Helper: success of `Vector.divAux` is mutual compatibility of the
three ratios together with the presence of a `Real` ratio. -/
lemma Vector.divAux_isOk_char (r1 r2 r3 : Ratio) :
    (match Vector.divAux r1 r2 r3 with | .ok _ => true | .error _ => false) =
      (r1.req r2 && r1.req r3 && r2.req r3 &&
        (r1.isReal || r2.isReal || r3.isReal)) := by
  cases hb : (r1.req r2 && r1.req r3 && r2.req r3) with
  | false => simp [Vector.divAux, hb]
  | true =>
    cases r1 <;> cases r2 <;> cases r3 <;>
      simp_all [Vector.divAux, Ratio.req, Ratio.isReal]

/-- Helper: characterization of `Vector.is_lindep` through the three
per-coordinate ratios. -/
lemma Vector.is_lindep_char (u v : Vector) :
    Vector.is_lindep u v =
      ((Ratio.compute u.x v.x).req (Ratio.compute u.y v.y) &&
       (Ratio.compute u.x v.x).req (Ratio.compute u.z v.z) &&
       (Ratio.compute u.y v.y).req (Ratio.compute u.z v.z) &&
       ((Ratio.compute u.x v.x).isReal || (Ratio.compute u.y v.y).isReal ||
        (Ratio.compute u.z v.z).isReal)) := by
  have h := Vector.divAux_isOk_char (Ratio.compute u.x v.x)
    (Ratio.compute u.y v.y) (Ratio.compute u.z v.z)
  simpa [Vector.is_lindep, Vector.div] using h

/-- Helper: the ratio of a scaled component to the original component is
`Zeros` on a zero component and the scale factor otherwise. -/
lemma Ratio.compute_smul (c t : ℚ) (hc : c ≠ 0) :
    Ratio.compute (c * t) t = if t = 0 then Ratio.zeros else Ratio.real c := by
  by_cases ht : t = 0
  · subst ht; simp [Ratio.compute]
  · have hct : c * t ≠ 0 := mul_ne_zero hc ht
    have hq : c * t / t = c := by field_simp
    simp [Ratio.compute, ht, hct, hq]

/-- Helper: a non-zero multiple of a non-zero vector passes the
linear-dependence test against that vector. -/
lemma Vector.is_lindep_of_smul (c : ℚ) (hc : c ≠ 0) (u v : Vector)
    (hx : u.x = c * v.x) (hy : u.y = c * v.y) (hz : u.z = c * v.z)
    (hv : v ≠ (⟨0, 0, 0⟩ : Vector)) : Vector.is_lindep u v = true := by
  rw [Vector.is_lindep_char, hx, hy, hz,
    Ratio.compute_smul c v.x hc, Ratio.compute_smul c v.y hc,
    Ratio.compute_smul c v.z hc]
  rcases (Vector.ne_zero_iff v).mp hv with h | h | h <;>
    by_cases h1 : v.x = 0 <;> by_cases h2 : v.y = 0 <;> by_cases h3 : v.z = 0 <;>
      simp_all [Ratio.req, Ratio.isReal]

/-- Helper: for non-zero vectors a zero cross product forces the
linear-dependence test to succeed. -/
lemma Vector.is_lindep_of_cross_zero (u v : Vector)
    (hu : u ≠ (⟨0, 0, 0⟩ : Vector)) (hv : v ≠ (⟨0, 0, 0⟩ : Vector))
    (h : Vector.vectoric_product u v = (⟨0, 0, 0⟩ : Vector)) :
    Vector.is_lindep u v = true := by
  have h1 : u.y * v.z - u.z * v.y = 0 := congrArg Vector.x h
  have h2 : u.z * v.x - u.x * v.z = 0 := congrArg Vector.y h
  have h3 : u.x * v.y - u.y * v.x = 0 := congrArg Vector.z h
  rcases (Vector.ne_zero_iff v).mp hv with hc | hc | hc
  · have hux : u.x ≠ 0 := by
      intro hx0
      apply hu
      have hy0 : u.y = 0 := by
        have := h3; rw [hx0] at this
        have : u.y * v.x = 0 := by linarith
        rcases mul_eq_zero.mp this with h' | h'
        · exact h'
        · exact absurd h' hc
      have hz0 : u.z = 0 := by
        have := h2; rw [hx0] at this
        have : u.z * v.x = 0 := by linarith
        rcases mul_eq_zero.mp this with h' | h'
        · exact h'
        · exact absurd h' hc
      cases u with
      | mk x y z => simp_all
    refine Vector.is_lindep_of_smul (u.x / v.x) (div_ne_zero hux hc) u v ?_ ?_ ?_ hv
    · field_simp
    · field_simp; nlinarith [h3]
    · field_simp; nlinarith [h2]
  · have huy : u.y ≠ 0 := by
      intro hy0
      apply hu
      have hx0 : u.x = 0 := by
        have := h3; rw [hy0] at this
        have : u.x * v.y = 0 := by linarith
        rcases mul_eq_zero.mp this with h' | h'
        · exact h'
        · exact absurd h' hc
      have hz0 : u.z = 0 := by
        have := h1; rw [hy0] at this
        have : u.z * v.y = 0 := by linarith
        rcases mul_eq_zero.mp this with h' | h'
        · exact h'
        · exact absurd h' hc
      cases u with
      | mk x y z => simp_all
    refine Vector.is_lindep_of_smul (u.y / v.y) (div_ne_zero huy hc) u v ?_ ?_ ?_ hv
    · field_simp; nlinarith [h3]
    · field_simp
    · field_simp; nlinarith [h1]
  · have huz : u.z ≠ 0 := by
      intro hz0
      apply hu
      have hx0 : u.x = 0 := by
        have := h2; rw [hz0] at this
        have : u.x * v.z = 0 := by linarith
        rcases mul_eq_zero.mp this with h' | h'
        · exact h'
        · exact absurd h' hc
      have hy0 : u.y = 0 := by
        have := h1; rw [hz0] at this
        have : u.y * v.z = 0 := by linarith
        rcases mul_eq_zero.mp this with h' | h'
        · exact h'
        · exact absurd h' hc
      cases u with
      | mk x y z => simp_all
    refine Vector.is_lindep_of_smul (u.z / v.z) (div_ne_zero huz hc) u v ?_ ?_ ?_ hv
    · field_simp; nlinarith [h2]
    · field_simp; nlinarith [h1]
    · field_simp

/-- Helper: whenever both directions are non-zero and the
linear-dependence test fails, the cross product is non-zero. -/
lemma Vector.cross_ne_zero_of_not_lindep (u v : Vector)
    (hu : u ≠ (⟨0, 0, 0⟩ : Vector)) (hv : v ≠ (⟨0, 0, 0⟩ : Vector))
    (h : Vector.is_lindep u v = false) :
    Vector.vectoric_product u v ≠ (⟨0, 0, 0⟩ : Vector) := by
  intro hcross
  have := Vector.is_lindep_of_cross_zero u v hu hv hcross
  rw [h] at this
  exact Bool.false_ne_true this

/-- C9: the Ratio comparison relation is exactly: `Invalid` compares
unequal to every Ratio including itself (so the relation is not
reflexive); `Zeros` compares equal to every Ratio except `Invalid`; and
`Real x` equals `Real y` if and only if the two scalars are exactly
equal. -/
theorem c9_ratio_equality_relation :
    (∀ r : Ratio, Ratio.req .invalid r = false ∧ Ratio.req r .invalid = false) ∧
    Ratio.req .zeros .zeros = true ∧
    (∀ x : ℚ, Ratio.req .zeros (.real x) = true ∧ Ratio.req (.real x) .zeros = true) ∧
    (∀ x y : ℚ, Ratio.req (.real x) (.real y) = decide (x = y)) := by
  exact ⟨fun r => ⟨by cases r <;> rfl, by cases r <;> rfl⟩, rfl,
    fun x => ⟨rfl, rfl⟩, fun x y => rfl⟩

/-- C5: SingleScalarDependence.compute implements exactly the fixed
elimination-priority table: all three coefficients zero panics; `a` and
`b` zero gives the constant relation `Z = -d / c`; `a` and `c` zero
gives `Y = -d / b`; `b` and `c` zero gives `X = -d / a`; only `a` zero
gives `Z` affine in `Y`; only `b` zero gives `Z` affine in `X`; only `c`
zero gives `Y` affine in `X`; and no zero coefficient fails with an
error value. -/
theorem c5_dependence_priority_table : ∀ a b c d : ℚ,
    (a = 0 → b = 0 → c = 0 →
      SingleScalarDependence.compute a b c d = .panicked) ∧
    (a = 0 → b = 0 → c ≠ 0 →
      SingleScalarDependence.compute a b c d =
        .ok (.ok ⟨.Z, .none, 1, -d / c⟩)) ∧
    (a = 0 → b ≠ 0 → c = 0 →
      SingleScalarDependence.compute a b c d =
        .ok (.ok ⟨.Y, .none, 1, -d / b⟩)) ∧
    (a ≠ 0 → b = 0 → c = 0 →
      SingleScalarDependence.compute a b c d =
        .ok (.ok ⟨.X, .none, 1, -d / a⟩)) ∧
    (a = 0 → b ≠ 0 → c ≠ 0 →
      SingleScalarDependence.compute a b c d =
        .ok (.ok ⟨.Z, .Y, -b / c, -d / c⟩)) ∧
    (a ≠ 0 → b = 0 → c ≠ 0 →
      SingleScalarDependence.compute a b c d =
        .ok (.ok ⟨.Z, .X, -a / c, -d / c⟩)) ∧
    (a ≠ 0 → b ≠ 0 → c = 0 →
      SingleScalarDependence.compute a b c d =
        .ok (.ok ⟨.Y, .X, -a / b, -d / b⟩)) ∧
    (a ≠ 0 → b ≠ 0 → c ≠ 0 →
      SingleScalarDependence.compute a b c d = .ok (.error ())) := by
  intro a b c d
  refine ⟨fun h1 h2 h3 => ?_, fun h1 h2 h3 => ?_, fun h1 h2 h3 => ?_,
    fun h1 h2 h3 => ?_, fun h1 h2 h3 => ?_, fun h1 h2 h3 => ?_,
    fun h1 h2 h3 => ?_, fun h1 h2 h3 => ?_⟩ <;>
  simp [SingleScalarDependence.compute, zero_dims, h1, h2, h3,
    SingleScalarDependence.scalar_only, SingleScalarDependence.from_coefficients]

/-- C5 witness: the eight rows of the table evaluated at concrete
coefficients. -/
theorem c5_dependence_priority_table_witness :
    SingleScalarDependence.compute 0 0 0 7 = .panicked ∧
    SingleScalarDependence.compute 0 0 2 4 = .ok (.ok ⟨.Z, .none, 1, -2⟩) ∧
    SingleScalarDependence.compute 0 2 0 4 = .ok (.ok ⟨.Y, .none, 1, -2⟩) ∧
    SingleScalarDependence.compute 2 0 0 4 = .ok (.ok ⟨.X, .none, 1, -2⟩) ∧
    SingleScalarDependence.compute 0 3 2 4 = .ok (.ok ⟨.Z, .Y, -(3 / 2), -2⟩) ∧
    SingleScalarDependence.compute 3 0 2 4 = .ok (.ok ⟨.Z, .X, -(3 / 2), -2⟩) ∧
    SingleScalarDependence.compute 3 2 0 4 = .ok (.ok ⟨.Y, .X, -(3 / 2), -2⟩) ∧
    SingleScalarDependence.compute 1 2 3 4 = .ok (.error ()) := by
  refine ⟨(c5_dependence_priority_table 0 0 0 7).1 rfl rfl rfl, ?_, ?_, ?_, ?_, ?_, ?_,
    (c5_dependence_priority_table 1 2 3 4).2.2.2.2.2.2.2
      (by decide) (by decide) (by decide)⟩
  · have h := (c5_dependence_priority_table 0 0 2 4).2.1 rfl rfl (by decide)
    rw [h]; norm_num
  · have h := (c5_dependence_priority_table 0 2 0 4).2.2.1 rfl (by decide) rfl
    rw [h]; norm_num
  · have h := (c5_dependence_priority_table 2 0 0 4).2.2.2.1 (by decide) rfl rfl
    rw [h]; norm_num
  · have h := (c5_dependence_priority_table 0 3 2 4).2.2.2.2.1 rfl (by decide) (by decide)
    rw [h]; norm_num
  · have h := (c5_dependence_priority_table 3 0 2 4).2.2.2.2.2.1 (by decide) rfl (by decide)
    rw [h]; norm_num
  · have h := (c5_dependence_priority_table 3 2 0 4).2.2.2.2.2.2.1 (by decide) (by decide) rfl
    rw [h]; norm_num

/-- C3 counterexample: for the zero vector against itself the three
per-coordinate ratios are all `Zeros`, which are mutually equal under
the asymmetric equality, yet `is_lindep` returns false, contradicting
both the mutual-equality characterization and the claim that the zero
vector is dependent with anything. -/
theorem c3_counterexample :
    Vector.is_lindep ⟨0, 0, 0⟩ ⟨0, 0, 0⟩ = false ∧
    Ratio.compute 0 0 = Ratio.zeros ∧
    Ratio.req (Ratio.compute 0 0) (Ratio.compute 0 0) = true := by
  exact ⟨by decide, by decide, by decide⟩

/-- C3 amended: `is_lindep u v` returns true exactly when the three
per-coordinate ratio comparisons are all mutually equal under the
asymmetric equality AND at least one of the three ratios is `Real`; in
particular `is_lindep` of the zero vector with any vector (including the
zero vector itself) is false. -/
theorem c3_lindep_characterization :
    (∀ u v : Vector, Vector.is_lindep u v =
      ((Ratio.compute u.x v.x).req (Ratio.compute u.y v.y) &&
       (Ratio.compute u.x v.x).req (Ratio.compute u.z v.z) &&
       (Ratio.compute u.y v.y).req (Ratio.compute u.z v.z) &&
       ((Ratio.compute u.x v.x).isReal || (Ratio.compute u.y v.y).isReal ||
        (Ratio.compute u.z v.z).isReal))) ∧
    (∀ v : Vector, Vector.is_lindep ⟨0, 0, 0⟩ v = false) := by
  have hzero : ∀ t : ℚ, (Ratio.compute 0 t).isReal = false := by
    intro t
    by_cases h : t = 0 <;> simp [Ratio.compute, h, Ratio.isReal]
  refine ⟨fun u v => Vector.is_lindep_char u v, fun v => ?_⟩
  rw [Vector.is_lindep_char]
  simp [hzero]

/-- C6: the 2x2 system solver on the three fixture systems, and the
general rule that a non-`Real` outcome of either the reduced
single-variable step or the back-substitution step yields `None`. -/
theorem c6_system_solver :
    EquationSolution.compute_multiple (1, 1, -2) (1, 2, -3) = some (1, 1) ∧
    EquationSolution.compute_multiple (1, 2, 3) (1, 2, 3) = Option.none ∧
    EquationSolution.compute_multiple (1, 2, 0) (1, 2, 3) = Option.none ∧
    (∀ eq1 eq2 : ℚ × ℚ × ℚ,
      (EquationSolution.compute (EquationSolution.reduceY eq1 eq2).1.1
          (EquationSolution.reduceY eq1 eq2).1.2 = .none ∨
       EquationSolution.compute (EquationSolution.reduceY eq1 eq2).1.1
          (EquationSolution.reduceY eq1 eq2).1.2 = .undefined) →
      EquationSolution.compute_multiple eq1 eq2 = Option.none) ∧
    (∀ (eq1 eq2 : ℚ × ℚ × ℚ) (y : ℚ),
      EquationSolution.compute (EquationSolution.reduceY eq1 eq2).1.1
        (EquationSolution.reduceY eq1 eq2).1.2 = .real y →
      (EquationSolution.compute (EquationSolution.reduceY eq1 eq2).2.1
          ((EquationSolution.reduceY eq1 eq2).2.2.1 * y +
           (EquationSolution.reduceY eq1 eq2).2.2.2) = .none ∨
       EquationSolution.compute (EquationSolution.reduceY eq1 eq2).2.1
          ((EquationSolution.reduceY eq1 eq2).2.2.1 * y +
           (EquationSolution.reduceY eq1 eq2).2.2.2) = .undefined) →
      EquationSolution.compute_multiple eq1 eq2 = Option.none) := by
  refine ⟨?_, ?_, ?_, fun eq1 eq2 h => ?_, fun eq1 eq2 y hy h => ?_⟩
  · norm_num [EquationSolution.compute_multiple, EquationSolution.reduceY,
      EquationSolution.compute, EquationSolution.compute_other_solution,
      Vector.add_def, Vector.sub_def, Vector.dot_def, Vector.smul_def]
  · norm_num [EquationSolution.compute_multiple, EquationSolution.reduceY,
      EquationSolution.compute, EquationSolution.compute_other_solution,
      Vector.add_def, Vector.sub_def, Vector.dot_def, Vector.smul_def]
  · norm_num [EquationSolution.compute_multiple, EquationSolution.reduceY,
      EquationSolution.compute, EquationSolution.compute_other_solution,
      Vector.add_def, Vector.sub_def, Vector.dot_def, Vector.smul_def]
  · rcases h with h | h <;> simp [EquationSolution.compute_multiple, h]
  · rcases h with h | h <;>
      simp [EquationSolution.compute_multiple, hy,
        EquationSolution.compute_other_solution, h]

/-- C6 witness: the two general clauses applied to concrete systems, an
`Undefined` reduced step and a failing back-substitution step. -/
theorem c6_system_solver_witness :
    EquationSolution.compute_multiple ((1 : ℚ), 2, 3) ((1 : ℚ), 2, 3) = Option.none ∧
    EquationSolution.compute_multiple ((0 : ℚ), 1, -2) ((0 : ℚ), 1, -2) = Option.none := by
  exact ⟨c6_system_solver.2.2.2.1 (1, 2, 3) (1, 2, 3)
      (Or.inr (by norm_num [EquationSolution.reduceY, EquationSolution.compute,
        Vector.add_def, Vector.sub_def, Vector.dot_def, Vector.smul_def])),
    c6_system_solver.2.2.2.2 (0, 1, -2) (0, 1, -2) 2
      (by norm_num [EquationSolution.reduceY, EquationSolution.compute,
        Vector.add_def, Vector.sub_def, Vector.dot_def, Vector.smul_def])
      (Or.inr (by norm_num [EquationSolution.reduceY, EquationSolution.compute,
        Vector.add_def, Vector.sub_def, Vector.dot_def, Vector.smul_def]))⟩

/-- Helper: a successful `Plain.new` on non-zero directions has a
non-zero plumb. -/
lemma Plain.new_ok_plumb (o d1 d2 : Vector) (pl : Plain)
    (h1 : d1 ≠ (⟨0, 0, 0⟩ : Vector)) (h2 : d2 ≠ (⟨0, 0, 0⟩ : Vector))
    (h : Plain.new o d1 d2 = .ok pl) :
    pl.plumb ≠ (⟨0, 0, 0⟩ : Vector) := by
  by_cases hl : d1.is_lindep d2 = true
  · simp [Plain.new, hl] at h
  · have hl' : d1.is_lindep d2 = false := by
      revert hl; cases d1.is_lindep d2 <;> simp
    simp only [Plain.new, hl', Bool.false_eq_true, if_false, PanicOr.ok.injEq] at h
    intro hz
    apply Vector.cross_ne_zero_of_not_lindep d1 d2 h1 h2 hl'
    rw [← h] at hz
    exact hz

/-- C1: the claim says the line returned by the plane-pair
classification lies in both planes; the code instead returns the
constant line through the origin with direction `(1, 0, 0)` for every
intersecting pair, and for the planes `x = 0` and `y = 0` that line is
not contained in the first plane. -/
theorem c1_intersection_line_bug :
    Plain.new ⟨0, 0, 0⟩ ⟨0, 1, 0⟩ ⟨0, 0, 1⟩ = .ok ⟨⟨1, 0, 0⟩, 0⟩ ∧
    Plain.new ⟨0, 0, 0⟩ ⟨0, 0, 1⟩ ⟨1, 0, 0⟩ = .ok ⟨⟨0, 1, 0⟩, 0⟩ ∧
    PlainRelations.of ⟨⟨1, 0, 0⟩, 0⟩ ⟨⟨0, 1, 0⟩, 0⟩ =
      .ok (.intersect ⟨⟨0, 0, 0⟩, ⟨1, 0, 0⟩⟩ ⟨0, 1⟩) ∧
    Plain.contains_line ⟨⟨1, 0, 0⟩, 0⟩ ⟨⟨0, 0, 0⟩, ⟨1, 0, 0⟩⟩ = false := by
  refine ⟨?_, ?_, ?_, ?_⟩ <;>
    norm_num [Plain.new, Vector.is_lindep, Vector.div, Vector.divAux,
      Ratio.compute, Ratio.req, Ratio.isReal, Vector.vectoric_product,
      Vector.add_def, Vector.sub_def, Vector.dot_def, Vector.smul_def,
      PlainRelations.of, Plain.angle_between, Vector.angle_between, Angle.fold,
      Plain.contains_line, Plain.contains_point, Plain.compute]

/-- C7: the claim says `put_multiple` assembles a point from two
compatible dependencies; the code inserts the source axes instead of
the target axes into its value map, so the map never reaches three
keys and the function panics on every input, in particular on the two
dependencies `z = y - 3` and `x = 2*y + 8` of the repository's own
substitution test. -/
theorem c7_put_multiple_always_panics :
    SingleScalarDependence.put_multiple ⟨.Z, .Y, 1, -3⟩ ⟨.X, .Y, 2, 8⟩ 0 =
      .panicked ∧
    (∀ (dep1 dep2 : SingleScalarDependence) (value : ℚ),
      SingleScalarDependence.put_multiple dep1 dep2 value = .panicked) := by
  refine ⟨by decide, ?_⟩
  intro dep1 dep2 value
  obtain ⟨t1, s1, sc1, k1⟩ := dep1
  obtain ⟨t2, s2, sc2, k2⟩ := dep2
  cases s1 <;> cases s2 <;>
    simp [SingleScalarDependence.put_multiple, SingleScalarDependence.sourceOf,
      SingleScalarDependence.DimMap.insert]

/-- C2 counterexample: the claim says degenerate construction inputs
yield a recoverable error value and never a process abort; feeding two
linearly dependent directions to `Plain.new` reaches the panic. -/
theorem c2_counterexample :
    Plain.new ⟨0, 0, 0⟩ ⟨1, 0, 0⟩ ⟨2, 0, 0⟩ = .panicked := by
  norm_num [Plain.new, Vector.is_lindep, Vector.div, Vector.divAux,
    Ratio.compute, Ratio.req, Ratio.isReal, Vector.add_def, Vector.sub_def, Vector.dot_def, Vector.smul_def]

/-- C2 amended: every construction-precondition failure on degenerate
input is surfaced as a panic (process abort), not as an error value:
`Plain.new` panics on linearly dependent directions, `from_two_lines`
panics on uniting or foreign lines, `from_three_points` panics on
collinear points, and `distance_between` panics on non-parallel
planes. -/
theorem c2_degenerate_inputs_panic :
    (∀ o d1 d2 : Vector, d1.is_lindep d2 = true →
      Plain.new o d1 d2 = .panicked) ∧
    (∀ l1 l2 : Line, LineRelations.of l1 l2 = .ok .unite →
      Plain.from_two_lines l1 l2 = .panicked) ∧
    (∀ (l1 l2 : Line) (d : ℚ) (a : Angle),
      LineRelations.of l1 l2 = .ok (.foreign d a) →
      Plain.from_two_lines l1 l2 = .panicked) ∧
    (∀ p1 p2 p3 : Vector, (p2 - p1).is_lindep (p3 - p1) = true →
      Plain.from_three_points p1 p2 p3 = .panicked) ∧
    (∀ pl1 pl2 : Plain, pl1.plumb.is_lindep pl2.plumb = false →
      Plain.distance_between pl1 pl2 = .panicked) := by
  refine ⟨fun o d1 d2 h => ?_, fun l1 l2 h => ?_, fun l1 l2 d a h => ?_,
    fun p1 p2 p3 h => ?_, fun pl1 pl2 h => ?_⟩
  · simp [Plain.new, h]
  · simp [Plain.from_two_lines, h]
  · simp [Plain.from_two_lines, h]
  · simp [Plain.from_three_points, Plain.new, h]
  · simp [Plain.distance_between, h]

/-- C2 witness: each of the four panicking operations evaluated at a
concrete degenerate input. -/
theorem c2_degenerate_inputs_panic_witness :
    Plain.new ⟨0, 0, 0⟩ ⟨1, 0, 0⟩ ⟨2, 0, 0⟩ = .panicked ∧
    Plain.from_two_lines ⟨⟨0, 0, 0⟩, ⟨1, 0, 0⟩⟩ ⟨⟨0, 0, 0⟩, ⟨1, 0, 0⟩⟩ =
      .panicked ∧
    Plain.from_two_lines ⟨⟨0, 0, 0⟩, ⟨1, 0, 0⟩⟩ ⟨⟨0, 1, 0⟩, ⟨0, 0, 1⟩⟩ =
      .panicked ∧
    Plain.from_three_points ⟨0, 0, 0⟩ ⟨1, 0, 0⟩ ⟨3, 0, 0⟩ = .panicked ∧
    Plain.distance_between ⟨⟨0, 0, 1⟩, 0⟩ ⟨⟨1, 0, 0⟩, 5⟩ = .panicked := by
  refine ⟨c2_degenerate_inputs_panic.1 ⟨0, 0, 0⟩ ⟨1, 0, 0⟩ ⟨2, 0, 0⟩ ?_,
    c2_degenerate_inputs_panic.2.1 _ _ ?_,
    c2_degenerate_inputs_panic.2.2.1 _ _ 1 ⟨0, 1⟩ ?_,
    c2_degenerate_inputs_panic.2.2.2.1 ⟨0, 0, 0⟩ ⟨1, 0, 0⟩ ⟨3, 0, 0⟩ ?_,
    c2_degenerate_inputs_panic.2.2.2.2 ⟨⟨0, 0, 1⟩, 0⟩ ⟨⟨1, 0, 0⟩, 5⟩ ?_⟩
  · norm_num [Vector.is_lindep, Vector.div, Vector.divAux,
      Ratio.compute, Ratio.req, Ratio.isReal, Vector.add_def, Vector.sub_def, Vector.dot_def, Vector.smul_def]
  · norm_num [LineRelations.of, Vector.is_lindep, Vector.div, Vector.divAux,
      Ratio.compute, Ratio.req, Ratio.isReal, Line.distance_from_point,
      Line.foot_solution, EquationSolution.compute, Vector.length_sq,
      Vector.add_def, Vector.sub_def, Vector.dot_def, Vector.smul_def]
  · norm_num [LineRelations.of, Vector.is_lindep, Vector.div, Vector.divAux,
      Ratio.compute, Ratio.req, Ratio.isReal, Line.distance_from_point,
      Line.foot_solution, EquationSolution.compute, Vector.length_sq,
      Line.intersection, EquationSolution.compute_multiple,
      EquationSolution.reduceY, EquationSolution.compute_other_solution,
      Line.angle_between, Vector.angle_between, Angle.fold, Plain.new,
      Vector.vectoric_product, Plain.distance_from, Plain.compute,
      Vector.add_def, Vector.sub_def, Vector.dot_def, Vector.smul_def]
  · norm_num [Vector.is_lindep, Vector.div, Vector.divAux,
      Ratio.compute, Ratio.req, Ratio.isReal, Vector.add_def, Vector.sub_def, Vector.dot_def, Vector.smul_def]
  · norm_num [Vector.is_lindep, Vector.div, Vector.divAux,
      Ratio.compute, Ratio.req, Ratio.isReal, Vector.add_def, Vector.sub_def, Vector.dot_def, Vector.smul_def]

/-- C8: for every line with non-zero direction and every point, the
internal equation solve of `distance_from_point` yields a `Real`
solution, so the defensive panic branch is unreachable and the function
returns a distance. -/
theorem c8_distance_solve_total :
    ∀ (l : Line) (p : Vector), l.direction ≠ (⟨0, 0, 0⟩ : Vector) →
      (∃ t, l.foot_solution p = .real t) ∧
      (∃ d, l.distance_from_point p = .ok d) := by
  intro l p h
  have hco : (l.direction * l.direction : ℚ) ≠ 0 := Vector.dot_self_ne_zero _ h
  have hc : ∀ a b : ℚ, a ≠ 0 → EquationSolution.compute a b = .real (-1 * b / a) := by
    intro a b ha
    simp [EquationSolution.compute, ha]
  have hs : l.foot_solution p =
      .real (-1 * (l.direction * (l.point - p)) / (l.direction * l.direction)) :=
    hc (l.direction * l.direction) (l.direction * (l.point - p)) hco
  have hd : l.distance_from_point p = .ok (Vector.length_sq
      (l.point - p +
        (-1 * (l.direction * (l.point - p)) / (l.direction * l.direction)) *
          l.direction)) := by
    unfold Line.distance_from_point
    rw [hs]
  exact ⟨⟨_, hs⟩, ⟨_, hd⟩⟩

/-- C8 witness: the x axis against the point `(0, 1, 0)`. -/
theorem c8_distance_solve_total_witness :
    (∃ t, Line.foot_solution ⟨⟨0, 0, 0⟩, ⟨1, 0, 0⟩⟩ ⟨0, 1, 0⟩ = .real t) ∧
    (∃ d, Line.distance_from_point ⟨⟨0, 0, 0⟩, ⟨1, 0, 0⟩⟩ ⟨0, 1, 0⟩ = .ok d) :=
  c8_distance_solve_total ⟨⟨0, 0, 0⟩, ⟨1, 0, 0⟩⟩ ⟨0, 1, 0⟩ (by decide)

/-- C10: line equality is relation-wise: the embedded `PartialEq for
Line` compares `LineRelations::of` with `Unite`, so it holds exactly
when the classification is `Unite`, and two differently-parametrized
lines describing the same point set compare equal even though both
fields differ. -/
theorem c10_line_equality_relation_wise :
    (∀ (l1 l2 : Line) (r : LineRelations), LineRelations.of l1 l2 = .ok r →
      (Line.peq l1 l2 = .ok true ↔ r = .unite)) ∧
    Line.peq ⟨⟨0, 0, 0⟩, ⟨1, 0, 0⟩⟩ ⟨⟨2, 0, 0⟩, ⟨2, 0, 0⟩⟩ = .ok true ∧
    (⟨⟨0, 0, 0⟩, ⟨1, 0, 0⟩⟩ : Line).point ≠ (⟨⟨2, 0, 0⟩, ⟨2, 0, 0⟩⟩ : Line).point ∧
    (⟨⟨0, 0, 0⟩, ⟨1, 0, 0⟩⟩ : Line).direction ≠
      (⟨⟨2, 0, 0⟩, ⟨2, 0, 0⟩⟩ : Line).direction := by
  refine ⟨fun l1 l2 r h => ?_, ?_, by decide, by decide⟩
  · simp only [Line.peq, h]
    cases r <;> simp [LineRelations.eqb]
  · norm_num [Line.peq, LineRelations.of, LineRelations.eqb,
      Vector.is_lindep, Vector.div, Vector.divAux,
      Ratio.compute, Ratio.req, Ratio.isReal, Line.distance_from_point,
      Line.foot_solution, EquationSolution.compute, Vector.length_sq,
      Vector.add_def, Vector.sub_def, Vector.dot_def, Vector.smul_def]

/-- C10 witness: the general clause applied to the x axis against
itself, whose classification is `Unite`. -/
theorem c10_line_equality_relation_wise_witness :
    Line.peq ⟨⟨0, 0, 0⟩, ⟨1, 0, 0⟩⟩ ⟨⟨0, 0, 0⟩, ⟨1, 0, 0⟩⟩ = .ok true ↔
      LineRelations.unite = LineRelations.unite :=
  c10_line_equality_relation_wise.1 ⟨⟨0, 0, 0⟩, ⟨1, 0, 0⟩⟩
    ⟨⟨0, 0, 0⟩, ⟨1, 0, 0⟩⟩ .unite
    (by norm_num [LineRelations.of, Vector.is_lindep, Vector.div,
      Vector.divAux, Ratio.compute, Ratio.req, Ratio.isReal,
      Line.distance_from_point, Line.foot_solution,
      EquationSolution.compute, Vector.length_sq,
      Vector.add_def, Vector.sub_def, Vector.dot_def, Vector.smul_def])

/-- C4 counterexample: the claim says every successful construction has
a non-zero plumb even with a zero direction input; but `Plain.new` with
a zero first direction succeeds (the linear-dependence test rejects the
zero vector) and produces the zero plumb. -/
theorem c4_counterexample :
    Plain.new ⟨0, 0, 0⟩ ⟨0, 0, 0⟩ ⟨1, 0, 0⟩ = .ok ⟨⟨0, 0, 0⟩, 0⟩ := by
  norm_num [Plain.new, Vector.is_lindep, Vector.div, Vector.divAux,
    Ratio.compute, Ratio.req, Ratio.isReal, Vector.vectoric_product,
    Vector.add_def, Vector.sub_def, Vector.dot_def, Vector.smul_def]

/-- C4 amended: for every Plain produced by a successful call to `new`,
`from_three_points` or `from_two_lines` whose two underlying direction
vectors are non-zero, the plumb field is a non-zero vector (with a zero
direction vector the construction can succeed with a zero plumb). -/
theorem c4_plumb_nonzero :
    (∀ (o d1 d2 : Vector) (pl : Plain),
      d1 ≠ (⟨0, 0, 0⟩ : Vector) → d2 ≠ (⟨0, 0, 0⟩ : Vector) →
      Plain.new o d1 d2 = .ok pl → pl.plumb ≠ (⟨0, 0, 0⟩ : Vector)) ∧
    (∀ (p1 p2 p3 : Vector) (pl : Plain),
      p2 - p1 ≠ (⟨0, 0, 0⟩ : Vector) → p3 - p1 ≠ (⟨0, 0, 0⟩ : Vector) →
      Plain.from_three_points p1 p2 p3 = .ok pl →
      pl.plumb ≠ (⟨0, 0, 0⟩ : Vector)) ∧
    (∀ (l1 l2 : Line) (pl : Plain),
      l1.direction ≠ (⟨0, 0, 0⟩ : Vector) →
      l2.direction ≠ (⟨0, 0, 0⟩ : Vector) →
      l2.point - l1.point ≠ (⟨0, 0, 0⟩ : Vector) →
      Plain.from_two_lines l1 l2 = .ok pl →
      pl.plumb ≠ (⟨0, 0, 0⟩ : Vector)) := by
  refine ⟨fun o d1 d2 pl h1 h2 h => Plain.new_ok_plumb o d1 d2 pl h1 h2 h,
    fun p1 p2 p3 pl h1 h2 h =>
      Plain.new_ok_plumb p1 (p2 - p1) (p3 - p1) pl h1 h2 h,
    fun l1 l2 pl h1 h2 h3 h => ?_⟩
  cases hof : LineRelations.of l1 l2 with
  | panicked => simp [Plain.from_two_lines, hof] at h
  | ok r =>
    cases r with
    | unite => simp [Plain.from_two_lines, hof] at h
    | parallel d =>
      have h' : Plain.new l1.point l1.direction (l2.point - l1.point) = .ok pl := by
        simpa [Plain.from_two_lines, hof] using h
      exact Plain.new_ok_plumb _ _ _ pl h1 h3 h'
    | intersect q a =>
      have h' : Plain.new q l1.direction l2.direction = .ok pl := by
        simpa [Plain.from_two_lines, hof] using h
      exact Plain.new_ok_plumb _ _ _ pl h1 h2 h'
    | foreign d a => simp [Plain.from_two_lines, hof] at h

/-- C4 witness: a successful construction from two non-zero independent
directions, whose plumb is non-zero. -/
theorem c4_plumb_nonzero_witness :
    Plain.new ⟨0, 0, 0⟩ ⟨1, 0, 0⟩ ⟨0, 1, 0⟩ = .ok ⟨⟨0, 0, 1⟩, 0⟩ ∧
    (Plain.mk ⟨0, 0, 1⟩ 0).plumb ≠ (⟨0, 0, 0⟩ : Vector) := by
  have hnew : Plain.new ⟨0, 0, 0⟩ ⟨1, 0, 0⟩ ⟨0, 1, 0⟩ = .ok ⟨⟨0, 0, 1⟩, 0⟩ := by
    norm_num [Plain.new, Vector.is_lindep, Vector.div, Vector.divAux,
      Ratio.compute, Ratio.req, Ratio.isReal, Vector.vectoric_product,
      Vector.add_def, Vector.sub_def, Vector.dot_def, Vector.smul_def]
  exact ⟨hnew, c4_plumb_nonzero.1 ⟨0, 0, 0⟩ ⟨1, 0, 0⟩ ⟨0, 1, 0⟩
    ⟨⟨0, 0, 1⟩, 0⟩ (by decide) (by decide) hnew⟩

end RustySpace
